import Mathlib

/-!
Verification of the HTML timetable scraping engine of rapla-ical-proxy
(`src/parser.rs`) against its natural-language specification.

The Rust parser operates on an HTML DOM through a fixed set of CSS
selectors.  We embed the document at exactly the granularity those
selectors consume: a document is a title plus a list of week blocks; a
week block is a week-number label, a week-header string and a list of
rows; a row is a list of cells; a cell carries its list of CSS class
tokens, its raw HTML (used in error payloads), the inner HTML of the
last matching `:is(a, span.link)` descendant (if any), and the inner
HTMLs of its `span.resource` and `span.person` descendants in document
order.  Everything downstream of the selectors — string splitting,
number and time parsing, the year-rollover rule, day-offset tracking,
defaulting and normalization quirks, and the discriminated error
model — is translated function by function from `src/parser.rs`.

Rust string primitives (`split`, `starts_with`, `trim`,
`trim_end_matches`, integer `parse`, chrono `NaiveTime::parse_from_str`
with format `"%H:%M"`, chrono `NaiveDate::from_ymd_opt` and date
addition) are modelled by structurally recursive Lean functions over
character lists so every definition evaluates inside the kernel.
-/

namespace Rapla

/-- Wall-clock time of day.  Models chrono `NaiveTime` as used by
`src/parser.rs`: every `NaiveTime` constructed there has zero seconds
(the `"%H:%M"` format and `from_hms_opt (h, m, 0)`), so only hour and
minute are represented. -/
structure Time where
  hour : Nat
  minute : Nat
deriving Repr, DecidableEq, Inhabited

/-- Proleptic Gregorian calendar date.  Models chrono `NaiveDate`. -/
structure Date where
  year : Int
  month : Nat
  day : Nat
deriving Repr, DecidableEq, Inhabited

/-- Gregorian leap-year rule, as used by chrono. -/
def isLeapYear (y : Int) : Bool :=
  y % 4 == 0 && (y % 100 != 0 || y % 400 == 0)

/-- Number of days in a month of a given year (proleptic Gregorian). -/
def daysInMonth (y : Int) (m : Nat) : Nat :=
  if m = 2 then (if isLeapYear y then 29 else 28)
  else if m = 4 ∨ m = 6 ∨ m = 9 ∨ m = 11 then 30
  else 31

/-- Models chrono `NaiveDate::from_ymd_opt`: `some` exactly when the
triple is a valid proleptic Gregorian date and the year lies in
chrono's representable range `MIN_YEAR = i32::MIN >> 13 = -262144` to
`MAX_YEAR = i32::MAX >> 13 = 262143`. -/
def from_ymd_opt (year : Int) (month day : Nat) : Option Date :=
  if -262144 ≤ year ∧ year ≤ 262143 ∧ 1 ≤ month ∧ month ≤ 12 ∧
      1 ≤ day ∧ day ≤ daysInMonth year month
  then some ⟨year, month, day⟩ else none

/-- Successor date (proleptic Gregorian rollover of day, month, year). -/
def nextDay (d : Date) : Date :=
  if d.day < daysInMonth d.year d.month then ⟨d.year, d.month, d.day + 1⟩
  else if d.month < 12 then ⟨d.year, d.month + 1, 1⟩
  else ⟨d.year + 1, 1, 1⟩

/-- Date plus a number of days.  Models chrono `NaiveDate + Duration::days n`
for nonnegative `n` (the parser only ever adds the nonnegative
`day_index`). -/
def addDays (d : Date) (n : Nat) : Date :=
  nextDay^[n] d

/-- Largest day count accepted by chrono `Duration::try_days`
(`i64::MAX` milliseconds, in whole days). -/
def durationMaxDays : Nat := 106751991167

/-- Splitter core for Rust `str::split` with a non-empty separator
string, over character lists.  `fuel` bounds recursion depth so the
definition is structurally recursive (callers supply more fuel than the
input length, which is always sufficient since each step consumes at
least one character). -/
def splitFuel (sep : List Char) : Nat → List Char → List Char → List (List Char)
  | 0, cs, acc => [acc.reverse ++ cs]
  | _ + 1, [], acc => [acc.reverse]
  | fuel + 1, c :: cs, acc =>
    if sep.isPrefixOf (c :: cs) then
      acc.reverse :: splitFuel sep fuel ((c :: cs).drop sep.length) []
    else
      splitFuel sep fuel cs (c :: acc)

/-- Rust `str::split(sep)` for a non-empty separator: the list of
(possibly empty) fragments between non-overlapping occurrences of
`sep`, scanned left to right.  Always returns a non-empty list. -/
def rustSplit (sep : String) (s : String) : List String :=
  (splitFuel sep.toList (s.toList.length + 1) s.toList []).map String.mk

/-- Rust `str::starts_with` for a string pattern. -/
def rustStartsWith (s pre : String) : Bool :=
  pre.toList.isPrefixOf s.toList

/-- Rust `str::trim_end_matches(c)`: remove all trailing occurrences of
the character `c`. -/
def rustTrimEndMatches (c : Char) (s : String) : String :=
  String.mk ((s.toList.reverse.dropWhile (· = c)).reverse)

/-- Rust `str::trim`: strip leading and trailing whitespace. -/
def rustTrim (s : String) : String :=
  String.mk (((s.toList.dropWhile Char.isWhitespace).reverse.dropWhile
    Char.isWhitespace).reverse)

/-- Digit-string core of Rust unsigned-integer `FromStr`: an optional
leading `+` followed by one or more ASCII digits, no other characters. -/
def parseRustNat (s : String) : Option Nat :=
  let cs := s.toList
  let cs := match cs with
    | '+' :: rest => rest
    | _ => cs
  if cs.isEmpty then none
  else if cs.all Char.isDigit then
    some (cs.foldl (fun a c => a * 10 + (c.toNat - 48)) 0)
  else none

/-- Rust `str::parse::<u32>()`: digits with optional `+`, value below `2^32`. -/
def parseU32 (s : String) : Option Nat :=
  match parseRustNat s with
  | some n => if n < 2 ^ 32 then some n else none
  | none => none

/-- Rust `str::parse::<usize>()` on a 64-bit target: digits with
optional `+`, value below `2^64`. -/
def parseUsize (s : String) : Option Nat :=
  match parseRustNat s with
  | some n => if n < 2 ^ 64 then some n else none
  | none => none

/-- Scan one to two ASCII digits from the front of a character list,
returning the value and the remaining characters.  Mirrors chrono's
numeric-field scanner, which consumes between 1 and the field width
(2 for hours and minutes) digits. -/
def scanDigits2 : List Char → Option (Nat × List Char)
  | [] => none
  | c1 :: rest =>
    if c1.isDigit then
      match rest with
      | c2 :: rest2 =>
        if c2.isDigit then some ((c1.toNat - 48) * 10 + (c2.toNat - 48), rest2)
        else some (c1.toNat - 48, rest)
      | [] => some (c1.toNat - 48, [])
    else none

/-- Models chrono `NaiveTime::parse_from_str(s, "%H:%M")`: leading
whitespace is skipped before each numeric field, each field consumes
one or two digits, the literal `:` must match exactly, the whole input
must be consumed, and the resulting hour/minute must be in range
(otherwise chrono's `Parsed::to_naive_time` rejects them).  Returns
`none` exactly when chrono returns an error. -/
def parseTimeHM (s : String) : Option Time :=
  match scanDigits2 (s.toList.dropWhile Char.isWhitespace) with
  | none => none
  | some (h, cs1) =>
    match cs1 with
    | ':' :: cs2 =>
      match scanDigits2 (cs2.dropWhile Char.isWhitespace) with
      | none => none
      | some (m, cs3) =>
        if cs3.isEmpty ∧ h ≤ 23 ∧ m ≤ 59 then some ⟨h, m⟩ else none
    | _ => none

/-- Entity-decoding core over character lists: left-to-right scan
replacing each recognised entity once and continuing after it. -/
def decodeEntityChars : List Char → List Char
  | [] => []
  | '&' :: 'a' :: 'm' :: 'p' :: ';' :: rest => '&' :: decodeEntityChars rest
  | '&' :: 'l' :: 't' :: ';' :: rest => '<' :: decodeEntityChars rest
  | '&' :: 'g' :: 't' :: ';' :: rest => '>' :: decodeEntityChars rest
  | '&' :: 'q' :: 'u' :: 'o' :: 't' :: ';' :: rest => '"' :: decodeEntityChars rest
  | '&' :: 'a' :: 'p' :: 'o' :: 's' :: ';' :: rest => '\'' :: decodeEntityChars rest
  | '&' :: '#' :: '3' :: '9' :: ';' :: rest => '\'' :: decodeEntityChars rest
  | '&' :: 'n' :: 'b' :: 's' :: 'p' :: ';' :: rest => '\u00A0' :: decodeEntityChars rest
  | c :: rest => c :: decodeEntityChars rest

/-- Models `html_escape::decode_html_entities` restricted to the named
entities relevant to this development (`amp`, `lt`, `gt`, `quot`,
`apos`, `#39`, `nbsp`); all other text passes through unchanged.  The
crate additionally decodes the full HTML5 named and numeric entity set,
which no property here depends on. -/
def decodeHtmlEntities (s : String) : String :=
  String.mk (decodeEntityChars s.toList)

/-! ## Error model (`ParseError`, `ParseErrorDetails` in `src/parser.rs`) -/

/-- Discriminated failure payload, mirroring `ParseErrorDetails`:
`generic` for free-text business-rule violations, `select` for a
required structural element that was absent (carrying the CSS query),
`html` for malformed content (carrying the diagnostic and the raw
offending HTML/text fragment). -/
inductive ParseErrorDetails where
  | generic (details : String)
  | select (query : String)
  | html (details : String) (html : String)
deriving Repr, DecidableEq

/-- Mirrors the Rust `ParseError` struct: a source-location marker plus
the discriminated details.  The Rust `source!` macro renders
`"{repo}/blob/{commit}/src/parser.rs#L{line}"` from build-time
environment values; we model it as the `"src/parser.rs#L{line}"`
suffix, the only part determined by the code itself. -/
structure ParseError where
  source : String
  details : ParseErrorDetails
deriving Repr, DecidableEq

/-- Shorthand for a `Select` failure. -/
def selectError (src query : String) : ParseError :=
  ⟨src, .select query⟩

/-- Shorthand for an `Html` (content) failure. -/
def htmlError (src details html : String) : ParseError :=
  ⟨src, .html details html⟩

/-- Shorthand for a `Generic` failure. -/
def genericError (src details : String) : ParseError :=
  ⟨src, .generic details⟩

/-- The raw-HTML payload of a result, when it is a content failure:
`some html` exactly when the computation failed with an `Html` error
carrying `html`. -/
def errorHtmlPayload {α : Type} : Except ParseError α → Option String
  | .error ⟨_, .html _ h⟩ => some h
  | _ => none

/-! ## Data model (`src/calendar.rs`) -/

/-- The `Event` struct of `src/calendar.rs`. -/
structure Event where
  date : Date
  start : Time
  «end» : Time
  title : String
  location : Option String
  organizer : Option String
  description : Option String
deriving Repr, DecidableEq

/-- The `Calendar` struct of `src/calendar.rs`. -/
structure Calendar where
  name : String
  events : List Event
deriving Repr, DecidableEq

/-! ## Document embedding

The parser reads the HTML document only through these selector results,
so a document is embedded as the data they return, in document order. -/

/-- One `td` cell of a week-table row, as seen by the parser:

* `classes` — the cell's CSS class tokens in order
  (`column.value().classes()`);
* `cellHtml` — the cell's raw HTML (`column.html()`, used in the
  missing-class error payload);
* `detailsHtml` — `inner_html` of the last `:is(a, span.link)`
  descendant, `none` when no such element exists;
* `resources` — `inner_html` of each `span.resource` descendant in
  document order;
* `persons` — `inner_html` of each `span.person` descendant in
  document order. -/
structure Cell where
  classes : List String
  cellHtml : String
  detailsHtml : Option String
  resources : List String
  persons : List String
deriving Repr, DecidableEq, Inhabited

/-- One week block (`div.calendar > table.week_table > tbody`):

* `weekNumberHtml` — `inner_html` of the first `th.week_number`
  descendant, `none` when absent;
* `headerHtml` — `inner_html` of the first `tr > td.week_header > nobr`
  descendant, `none` when absent;
* `rows` — the cells of each `tr` descendant, in document order (the
  first row is the header row and is skipped by the parser). -/
structure WeekBlock where
  weekNumberHtml : Option String
  headerHtml : Option String
  rows : List (List Cell)
deriving Repr, DecidableEq, Inhabited

/-- A parsed HTML document: `titleHtml` is the `inner_html` of the
first `title` element (`none` when absent), `weeks` the week blocks in
document order. -/
structure Doc where
  titleHtml : Option String
  weeks : List WeekBlock
deriving Repr, DecidableEq, Inhabited

/-! ## The parser (`src/parser.rs`) -/

/-- Lines 219–250 of `src/parser.rs` (the tail of
`parse_event_details`, after the end time has been determined):
normalize a parsed start of exactly 00:00 to 08:00, take the title
from the second `<br>`-separated segment (entity-decoded), the
location from the last `span.resource` (entity-decoded), and join all
resources/persons with `", "` for description/organizer (absent when
there are none). -/
def finishEvent (element : Cell) (date : Date) (details : String)
    (detailsRest : List String) (start0 endTime : Time) :
    Except ParseError Event :=
  match detailsRest with
  | [] =>
    .error (htmlError "src/parser.rs#L228"
      "couldn't find event title" details)
  | titleRaw :: _ =>
    .ok ⟨date,
      (if start0.hour = 0 ∧ start0.minute = 0 then (⟨8, 0⟩ : Time)
        else start0),
      endTime,
      decodeHtmlEntities titleRaw,
      (element.resources.map decodeHtmlEntities).getLast?,
      (if (element.persons.map decodeHtmlEntities).isEmpty then none
        else some (String.intercalate ", "
          (element.persons.map decodeHtmlEntities))),
      (if (element.resources.map decodeHtmlEntities).isEmpty then none
        else some (String.intercalate ", "
          (element.resources.map decodeHtmlEntities)))⟩

/-- Lines 186–251 of `src/parser.rs` (`parse_event_details`): extract
one `Event` from an event cell for a known `date`.  The time range is
the first `<br>`-separated segment of the details, split on the literal
`&nbsp;-`; the start token is parsed with `"%H:%M"` (a failure is a
content failure carrying the raw time range), an empty end token
defaults to 18:00, and `finishEvent` performs the midnight
normalization and assembles the remaining fields.  Error messages drop
the interpolated chrono error description (`": {err}"`) from the Rust
format strings. -/
def parse_event_details (element : Cell) (date : Date) :
    Except ParseError Event :=
  match element.detailsHtml with
  | none => .error (selectError "src/parser.rs#L189" ":is(a, span.link)")
  | some details =>
    match rustSplit "<br>" details with
    | [] =>
      .error (htmlError "src/parser.rs#L192"
        "couldn't find time range in event details" details)
    | times_raw :: detailsRest =>
      match rustSplit "&nbsp;-" times_raw with
      | [] =>
        .error (htmlError "src/parser.rs#L201"
          "missing event start time" times_raw)
      | startTok :: timesRest =>
        match parseTimeHM startTok with
        | none =>
          .error (htmlError "src/parser.rs#L204"
            "couldn't parse event start time" times_raw)
        | some start0 =>
          match timesRest with
          | [] =>
            .error (htmlError "src/parser.rs#L208"
              "missing event end time in" times_raw)
          | end_time_raw :: _ =>
            if end_time_raw = "" then
              finishEvent element date details detailsRest start0 ⟨18, 0⟩
            else
              match parseTimeHM end_time_raw with
              | none =>
                .error (htmlError "src/parser.rs#L217"
                  "couldn't parse event end time" times_raw)
              | some t =>
                finishEvent element date details detailsRest start0 t

/-- Lines 125–156 of `src/parser.rs` (the header half of `parse_week`):
derive the week's Monday date from the week-header text.  Split on
spaces, take the second token, strip trailing periods, split on `.`
into exactly two parts, parse both as `u32`, and build the date with
`from_ymd_opt`. -/
def weekMonday (week_header : String) (start_year : Int) :
    Except ParseError Date :=
  match (rustSplit " " week_header)[1]? with
  | none =>
    .error (htmlError "src/parser.rs#L129"
      "couldn't find day and month in week header: missing second element after splitting by space"
      week_header)
  | some tok =>
    match rustSplit "." (rustTrimEndMatches '.' tok) with
    | [dayStr, monthStr] =>
      match parseU32 dayStr with
      | none =>
        .error (htmlError "src/parser.rs#L143"
          "couldn't parse day in week header" week_header)
      | some start_day =>
        match parseU32 monthStr with
        | none =>
          .error (htmlError "src/parser.rs#L148"
            "couldn't parse month in week header" week_header)
        | some start_month =>
          match from_ymd_opt start_year start_month start_day with
          | none =>
            .error (htmlError "src/parser.rs#L154"
              s!"week start date {start_day}.{start_month}.{start_year} derived from week header appears to be an invalid date"
              week_header)
          | some monday => .ok monday
    | _ =>
      .error (htmlError "src/parser.rs#L136"
        "expected day + month information in week header to consist of two elements when splitting by dots"
        week_header)

/-- Lines 162–180 of `src/parser.rs` (the inner cell loop of
`parse_week`): walk the cells of one row left to right carrying the
running `day_index`.  A cell must have at least one class token; a
first class token starting with `week_separatorcell` increments
`day_index`; any cell whose first class token is not `week_block` is
then skipped; an event cell produces an event dated
`monday + day_index` days (with the `Duration::try_days` overflow
guard). -/
def processCells (monday : Date) : Nat → List Cell →
    Except ParseError (List Event)
  | _, [] => .ok []
  | day_index, column :: rest =>
    match column.classes.head? with
    | none =>
      .error (htmlError "src/parser.rs#L163"
        "expected element to have a class" column.cellHtml)
    | some cls =>
      let day_index :=
        if rustStartsWith cls "week_separatorcell" then day_index + 1
        else day_index
      if cls ≠ "week_block" then processCells monday day_index rest
      else if day_index > durationMaxDays then
        .error (genericError "src/parser.rs#L177"
          "overflowed date value, something is very wrong")
      else
        match parse_event_details column (addDays monday day_index) with
        | .error e => .error e
        | .ok ev =>
          match processCells monday day_index rest with
          | .error e => .error e
          | .ok evs => .ok (ev :: evs)

/-- Lines 158–181 of `src/parser.rs` (the row loop of `parse_week`):
each row is processed with `day_index` reset to `0`, and the events of
all rows are appended in order. -/
def processRows (monday : Date) : List (List Cell) →
    Except ParseError (List Event)
  | [] => .ok []
  | row :: rest =>
    match processCells monday 0 row with
    | .error e => .error e
    | .ok evs =>
      match processRows monday rest with
      | .error e => .error e
      | .ok more => .ok (evs ++ more)

/-- Lines 122–184 of `src/parser.rs` (`parse_week`): locate the week
header (a selection failure when absent), derive the Monday date, then
process every row after the first. -/
def parse_week (element : WeekBlock) (start_year : Int) :
    Except ParseError (List Event) :=
  match element.headerHtml with
  | none => .error (selectError "src/parser.rs#L123" "tr > td.week_header > nobr")
  | some week_header =>
    match weekMonday week_header start_year with
    | .error e => .error e
    | .ok monday => processRows monday (element.rows.drop 1)

/-- Lines 98–109 of `src/parser.rs` (inside `parse_calendar`): read a
week block's week-number label (a selection failure when the
`th.week_number` cell is absent), split on spaces, take the second
token and parse it as `usize`.  `idx` is the zero-based week-block
index, used only in the error message (`week #(idx+1)`).  The message
for an unparsable number drops the interpolated Rust error text. -/
def parseWeekNumber (w : WeekBlock) (idx : Nat) : Except ParseError Nat :=
  match w.weekNumberHtml with
  | none => .error (selectError "src/parser.rs#L98" "th.week_number")
  | some label =>
    match (rustSplit " " label)[1]? with
    | none =>
      .error (htmlError "src/parser.rs#L104"
        s!"malformed calendar week number in week #{idx + 1}: missing second element after splitting by space"
        label)
    | some tok =>
      match parseUsize tok with
      | none =>
        .error (htmlError "src/parser.rs#L109"
          s!"malformed calendar week number in week #{idx + 1}" label)
      | some n => .ok n

/-- Lines 95–117 of `src/parser.rs` (the week loop of
`parse_calendar`), as a recursion over the remaining week blocks:
`idx` is the zero-based index of the first remaining block and
`start_year` the current working year.  A parsed week number of `1` at
`idx > 0` increments the working year before the week is processed,
and the incremented year is carried to all later weeks. -/
def parseWeeks : List WeekBlock → Nat → Int → Except ParseError (List Event)
  | [], _, _ => .ok []
  | w :: rest, idx, start_year =>
    match parseWeekNumber w idx with
    | .error e => .error e
    | .ok week_number =>
      let start_year :=
        if week_number = 1 ∧ idx > 0 then start_year + 1 else start_year
      match parse_week w start_year with
      | .error e => .error e
      | .ok evs =>
        match parseWeeks rest (idx + 1) start_year with
        | .error e => .error e
        | .ok more => .ok (evs ++ more)

/-- Lines 88–120 of `src/parser.rs` (`parse_calendar`): the calendar
name is the trimmed title text (a selection failure when there is no
title element), and the events are those of all week blocks in
document order, subject to the year-rollover rule. -/
def parse_calendar (doc : Doc) (start_year : Int) :
    Except ParseError Calendar :=
  match doc.titleHtml with
  | none => .error (selectError "src/parser.rs#L90" "title")
  | some t =>
    match parseWeeks doc.weeks 0 start_year with
    | .error e => .error e
    | .ok events => .ok ⟨rustTrim t, events⟩

/-! ## Specification-side reference formulations

The following definitions restate parts of the parser the way the
specification phrases them — with positional day/separator counts and a
closed-form working year instead of running mutable counters.  The
claim theorems prove the translated parser equal to these
formulations. -/

/-- A day-separator cell: its first class token starts with
`week_separatorcell`. -/
def isSeparatorCell (c : Cell) : Bool :=
  match c.classes.head? with
  | some cls => rustStartsWith cls "week_separatorcell"
  | none => false

/-- Number of day-separator cells strictly before position `i` in a row. -/
def sepCountBefore (row : List Cell) (i : Nat) : Nat :=
  (row.take i).countP isSeparatorCell

/-- Specification form of the cell walk: the cell at position `i` of a
row is dated `monday` plus the number of day-separator cells preceding
it in that row (`sepCountBefore`), rather than via the running
`day_index` counter.  The `durationMaxDays` guard of the translated
code is mirrored verbatim. -/
def processCellsFrom (monday : Date) (row : List Cell) (i : Nat) :
    Except ParseError (List Event) :=
  if h : i < row.length then
    let column := row.get ⟨i, h⟩
    match column.classes.head? with
    | none =>
      .error (htmlError "src/parser.rs#L163"
        "expected element to have a class" column.cellHtml)
    | some cls =>
      if cls = "week_block" then
        if sepCountBefore row i > durationMaxDays then
          .error (genericError "src/parser.rs#L177"
            "overflowed date value, something is very wrong")
        else
          match parse_event_details column
              (addDays monday (sepCountBefore row i)) with
          | .error e => .error e
          | .ok ev =>
            match processCellsFrom monday row (i + 1) with
            | .error e => .error e
            | .ok evs => .ok (ev :: evs)
      else processCellsFrom monday row (i + 1)
  else .ok []
termination_by row.length - i

/-- Specification form of the row walk: every row starts over at
position `0` (the day count is reset per row), and rows contribute
their events in order. -/
def processRowsFrom (monday : Date) : List (List Cell) →
    Except ParseError (List Event)
  | [] => .ok []
  | row :: rest =>
    match processCellsFrom monday row 0 with
    | .error e => .error e
    | .ok evs =>
      match processRowsFrom monday rest with
      | .error e => .error e
      | .ok more => .ok (evs ++ more)

/-- Whether the week block at index `j` has a week-number label that
parses to exactly `1`. -/
def weekNumberIsOne (ws : List WeekBlock) (j : Nat) : Bool :=
  match parseWeekNumber (ws.getD j default) j with
  | .ok n => n == 1
  | .error _ => false

/-- Number of week blocks at indices `1, …, i - 1` (the very first
block at index `0` is never counted) whose week number is `1`. -/
def onesBelow (ws : List WeekBlock) (i : Nat) : Nat :=
  ((List.range i).drop 1).countP (weekNumberIsOne ws)

/-- The processing step for the week block at index `i`, with its
working year written in closed form: the supplied `start_year` plus the
number of week blocks at indices `1, …, i` whose week number is `1`
(note `onesBelow ws (i + 1)` counts index `i` itself, so a rollover at
block `i` applies to block `i`). -/
def stepAt (ws : List WeekBlock) (start_year : Int) (i : Nat) :
    Except ParseError (List Event) :=
  match parseWeekNumber (ws.getD i default) i with
  | .error e => .error e
  | .ok _ => parse_week (ws.getD i default) (start_year + onesBelow ws (i + 1))

/-- Specification form of the week loop: process blocks
`i, i + 1, …` in order, each with its closed-form working year, and
stop at the first failure. -/
def parseWeeksFrom (ws : List WeekBlock) (start_year : Int) (i : Nat) :
    Except ParseError (List Event) :=
  if _h : i < ws.length then
    match stepAt ws start_year i with
    | .error e => .error e
    | .ok evs =>
      match parseWeeksFrom ws start_year (i + 1) with
      | .error e => .error e
      | .ok more => .ok (evs ++ more)
  else .ok []
termination_by ws.length - i

/-! ## Helper lemmas -/

/-- Anatomy of a successful event-details parse: a cell parses to `ev`
only via the unique success path of `parse_event_details`, which pins
down every field of `ev` in terms of the cell's content.  The end time
is either the 18:00 default (empty end token) or the parsed end token. -/
theorem parse_event_details_ok_shape (element : Cell) (date : Date)
    (ev : Event) (h : parse_event_details element date = .ok ev) :
    ∃ d times_raw titleRaw rest2 startTok endTok restT start0 endT,
      element.detailsHtml = some d ∧
      rustSplit "<br>" d = times_raw :: titleRaw :: rest2 ∧
      rustSplit "&nbsp;-" times_raw = startTok :: endTok :: restT ∧
      parseTimeHM startTok = some start0 ∧
      ((endTok = "" ∧ endT = (⟨18, 0⟩ : Time)) ∨
        (endTok ≠ "" ∧ parseTimeHM endTok = some endT)) ∧
      ev = ⟨date,
        (if start0.hour = 0 ∧ start0.minute = 0 then (⟨8, 0⟩ : Time)
          else start0),
        endT,
        decodeHtmlEntities titleRaw,
        (element.resources.map decodeHtmlEntities).getLast?,
        (if (element.persons.map decodeHtmlEntities).isEmpty then none
          else some (String.intercalate ", "
            (element.persons.map decodeHtmlEntities))),
        (if (element.resources.map decodeHtmlEntities).isEmpty then none
          else some (String.intercalate ", "
            (element.resources.map decodeHtmlEntities)))⟩ := by
  unfold parse_event_details at h
  split at h
  next => exact Except.noConfusion h
  next d hd =>
    split at h
    next => exact Except.noConfusion h
    next times_raw detailsRest hs1 =>
      split at h
      next => exact Except.noConfusion h
      next startTok timesRest hs2 =>
        split at h
        next => exact Except.noConfusion h
        next start0 hst =>
          split at h
          next => exact Except.noConfusion h
          next endTok restT =>
            unfold finishEvent at h
            split at h
            · -- empty end token
              split at h
              next => exact Except.noConfusion h
              next titleRaw rest2 =>
                refine ⟨d, times_raw, titleRaw, rest2, startTok, endTok,
                  restT, start0, ⟨18, 0⟩, hd, hs1, hs2, hst,
                  Or.inl ⟨by assumption, rfl⟩, ?_⟩
                exact (Except.ok.inj h).symm
            · -- non-empty end token
              split at h
              next => exact Except.noConfusion h
              next endT het =>
                split at h
                next => exact Except.noConfusion h
                next titleRaw rest2 =>
                  refine ⟨d, times_raw, titleRaw, rest2, startTok, endTok,
                    restT, start0, endT, hd, hs1, hs2, hst,
                    Or.inr ⟨by assumption, het⟩, ?_⟩
                  exact (Except.ok.inj h).symm

/-! ## Claim C1 -/

/-- C1 counterexample: for the event cell whose time-range text is
`"&nbsp;-17:00"` (empty start token), `parse_event_details` does
**not** succeed with a start of 08:00 — it fails with a content
failure, because the empty start token is fed to the `"%H:%M"` parser
unconditionally (only the *end* token has an empty-token default). -/
theorem C1_counterexample :
    parse_event_details
        ⟨["week_block"], "", some "&nbsp;-17:00<br>Vorlesung", [], []⟩
        ⟨2024, 3, 25⟩ =
      .error (htmlError "src/parser.rs#L204"
        "couldn't parse event start time" "&nbsp;-17:00") ∧
    ∀ ev : Event,
      parse_event_details
          ⟨["week_block"], "", some "&nbsp;-17:00<br>Vorlesung", [], []⟩
          ⟨2024, 3, 25⟩ ≠ .ok ev := by
  refine ⟨rfl, fun ev h => ?_⟩
  rw [show parse_event_details
      ⟨["week_block"], "", some "&nbsp;-17:00<br>Vorlesung", [], []⟩
      ⟨2024, 3, 25⟩ =
    .error (htmlError "src/parser.rs#L204"
      "couldn't parse event start time" "&nbsp;-17:00") from rfl] at h
  exact Except.noConfusion h

/-- C1 (amended): for every event cell whose time-range text has an
empty start token before the `"&nbsp;-"` separator,
`parse_event_details` fails with a content failure carrying the raw
time-range text (the empty token does not parse as `"%H:%M"`); there
is no 08:00 default for an empty start token. -/
theorem C1_empty_start_is_content_failure
    (element : Cell) (date : Date) (d times_raw : String)
    (rest restT : List String)
    (hd : element.detailsHtml = some d)
    (hs1 : rustSplit "<br>" d = times_raw :: rest)
    (hs2 : rustSplit "&nbsp;-" times_raw = "" :: restT) :
    parse_event_details element date =
      .error (htmlError "src/parser.rs#L204"
        "couldn't parse event start time" times_raw) := by
  simp only [parse_event_details, hd, hs1, hs2,
    show parseTimeHM "" = none from rfl]

/-- C1 witness: the amended theorem applied to the concrete
`"&nbsp;-17:00"` cell. -/
theorem C1_empty_start_witness :
    (⟨["week_block"], "", some "&nbsp;-17:00<br>Vorlesung", [], []⟩ :
        Cell).detailsHtml = some "&nbsp;-17:00<br>Vorlesung" ∧
    rustSplit "<br>" "&nbsp;-17:00<br>Vorlesung" =
      ["&nbsp;-17:00", "Vorlesung"] ∧
    rustSplit "&nbsp;-" "&nbsp;-17:00" = ["", "17:00"] ∧
    parse_event_details
        ⟨["week_block"], "", some "&nbsp;-17:00<br>Vorlesung", [], []⟩
        ⟨2024, 3, 25⟩ =
      .error (htmlError "src/parser.rs#L204"
        "couldn't parse event start time" "&nbsp;-17:00") :=
  ⟨rfl, rfl, rfl,
    C1_empty_start_is_content_failure
      ⟨["week_block"], "", some "&nbsp;-17:00<br>Vorlesung", [], []⟩
      ⟨2024, 3, 25⟩ "&nbsp;-17:00<br>Vorlesung" "&nbsp;-17:00"
      ["Vorlesung"] ["17:00"] rfl rfl rfl⟩

/-! ## Claim C4 -/

/-- C4: for every event cell whose start-time token parses
successfully, the resulting event's start time is the parsed time,
except that exactly 00:00 is overridden to 08:00 (any other parsed
start, e.g. 07:30, is preserved unchanged). -/
theorem C4_midnight_start_normalized
    (element : Cell) (date : Date) (d times_raw startTok : String)
    (rest restT : List String) (t : Time) (ev : Event)
    (hd : element.detailsHtml = some d)
    (hs1 : rustSplit "<br>" d = times_raw :: rest)
    (hs2 : rustSplit "&nbsp;-" times_raw = startTok :: restT)
    (hst : parseTimeHM startTok = some t)
    (hok : parse_event_details element date = .ok ev) :
    ev.start =
      if t.hour = 0 ∧ t.minute = 0 then (⟨8, 0⟩ : Time) else t := by
  obtain ⟨d', tr', titleRaw, rest2, st', et', restT', start0, endT,
    hd', hs1', hs2', hst', _hend, hev⟩ :=
    parse_event_details_ok_shape element date ev hok
  obtain rfl : d = d' := Option.some.inj (hd.symm.trans hd')
  obtain ⟨rfl, -⟩ : times_raw = tr' ∧ rest = titleRaw :: rest2 :=
    List.cons.inj (hs1.symm.trans hs1')
  obtain ⟨rfl, -⟩ : startTok = st' ∧ restT = et' :: restT' :=
    List.cons.inj (hs2.symm.trans hs2')
  obtain rfl : t = start0 := Option.some.inj (hst.symm.trans hst')
  rw [hev]

/-- C4 witness: start text `"00:00"` is normalized to 08:00 in the
parsed event. -/
theorem C4_witness :
    parseTimeHM "00:00" = some ⟨0, 0⟩ ∧
    parse_event_details
        ⟨["week_block"], "", some "00:00&nbsp;-17:00<br>Vorlesung", [], []⟩
        ⟨2024, 3, 25⟩ =
      .ok ⟨⟨2024, 3, 25⟩, ⟨8, 0⟩, ⟨17, 0⟩, "Vorlesung",
        none, none, none⟩ ∧
    (⟨⟨2024, 3, 25⟩, ⟨8, 0⟩, ⟨17, 0⟩, "Vorlesung",
        none, none, none⟩ : Event).start =
      (if (⟨0, 0⟩ : Time).hour = 0 ∧ (⟨0, 0⟩ : Time).minute = 0 then
        (⟨8, 0⟩ : Time) else ⟨0, 0⟩) :=
  ⟨rfl, rfl,
    C4_midnight_start_normalized
      ⟨["week_block"], "", some "00:00&nbsp;-17:00<br>Vorlesung", [], []⟩
      ⟨2024, 3, 25⟩ "00:00&nbsp;-17:00<br>Vorlesung" "00:00&nbsp;-17:00"
      "00:00" ["Vorlesung"] ["17:00"] ⟨0, 0⟩
      ⟨⟨2024, 3, 25⟩, ⟨8, 0⟩, ⟨17, 0⟩, "Vorlesung", none, none, none⟩
      rfl rfl rfl rfl rfl⟩

/-! ## Claim C5 -/

/-- C5: (i) an empty end token after the `"&nbsp;-"` separator yields
an end time of 18:00 in the resulting event; (ii) a non-empty end
token that parses as `"%H:%M"` yields exactly the parsed end time;
(iii) a non-empty end token that fails to parse (with a
successfully-parsed start) is a content failure carrying the raw
time-range text. -/
theorem C5_end_token_default_and_parse :
    (∀ (element : Cell) (date : Date) (d times_raw startTok : String)
      (rest restT : List String) (ev : Event),
      element.detailsHtml = some d →
      rustSplit "<br>" d = times_raw :: rest →
      rustSplit "&nbsp;-" times_raw = startTok :: "" :: restT →
      parse_event_details element date = .ok ev →
      ev.«end» = ⟨18, 0⟩) ∧
    (∀ (element : Cell) (date : Date) (d times_raw startTok endTok : String)
      (rest restT : List String) (t : Time) (ev : Event),
      element.detailsHtml = some d →
      rustSplit "<br>" d = times_raw :: rest →
      rustSplit "&nbsp;-" times_raw = startTok :: endTok :: restT →
      parseTimeHM endTok = some t →
      parse_event_details element date = .ok ev →
      ev.«end» = t) ∧
    (∀ (element : Cell) (date : Date) (d times_raw startTok endTok : String)
      (rest restT : List String) (t0 : Time),
      element.detailsHtml = some d →
      rustSplit "<br>" d = times_raw :: rest →
      rustSplit "&nbsp;-" times_raw = startTok :: endTok :: restT →
      parseTimeHM startTok = some t0 →
      endTok ≠ "" →
      parseTimeHM endTok = none →
      parse_event_details element date =
        .error (htmlError "src/parser.rs#L217"
          "couldn't parse event end time" times_raw)) := by
  refine ⟨?_, ?_, ?_⟩
  · intro element date d times_raw startTok rest restT ev hd hs1 hs2 hok
    obtain ⟨d', tr', titleRaw, rest2, st', et', restT', start0, endT,
      hd', hs1', hs2', _hst', hend, hev⟩ :=
      parse_event_details_ok_shape element date ev hok
    obtain rfl : d = d' := Option.some.inj (hd.symm.trans hd')
    obtain ⟨rfl, -⟩ : times_raw = tr' ∧ rest = titleRaw :: rest2 :=
      List.cons.inj (hs1.symm.trans hs1')
    obtain ⟨rfl, het⟩ :
        startTok = st' ∧ ("" :: restT : List String) = et' :: restT' :=
      List.cons.inj (hs2.symm.trans hs2')
    obtain ⟨het0, -⟩ : "" = et' ∧ restT = restT' := List.cons.inj het
    rcases hend with ⟨-, rfl⟩ | ⟨hne, -⟩
    · rw [hev]
    · exact absurd het0.symm hne
  · intro element date d times_raw startTok endTok rest restT t ev
      hd hs1 hs2 hpt hok
    obtain ⟨d', tr', titleRaw, rest2, st', et', restT', start0, endT,
      hd', hs1', hs2', _hst', hend, hev⟩ :=
      parse_event_details_ok_shape element date ev hok
    obtain rfl : d = d' := Option.some.inj (hd.symm.trans hd')
    obtain ⟨rfl, -⟩ : times_raw = tr' ∧ rest = titleRaw :: rest2 :=
      List.cons.inj (hs1.symm.trans hs1')
    obtain ⟨rfl, het⟩ :
        startTok = st' ∧ (endTok :: restT : List String) = et' :: restT' :=
      List.cons.inj (hs2.symm.trans hs2')
    obtain ⟨rfl, -⟩ : endTok = et' ∧ restT = restT' := List.cons.inj het
    rcases hend with ⟨rfl, rfl⟩ | ⟨-, hpe⟩
    · exact absurd hpt (by rw [show parseTimeHM "" = none from rfl]; simp)
    · obtain rfl : t = endT := Option.some.inj (hpt.symm.trans hpe)
      rw [hev]
  · intro element date d times_raw startTok endTok rest restT t0
      hd hs1 hs2 hst hne hnone
    simp only [parse_event_details, hd, hs1, hs2, hst, if_neg hne, hnone]

/-- C5 witness: the three parts of the end-token theorem at concrete
cells — `"09:00&nbsp;-"` (empty end) gives 18:00, `"09:00&nbsp;-17:00"`
gives 17:00, and `"09:00&nbsp;-banana"` is a content failure carrying
`"09:00&nbsp;-banana"`. -/
theorem C5_witness :
    parse_event_details
        ⟨["week_block"], "", some "09:00&nbsp;-<br>Vorlesung", [], []⟩
        ⟨2024, 3, 25⟩ =
      .ok ⟨⟨2024, 3, 25⟩, ⟨9, 0⟩, ⟨18, 0⟩, "Vorlesung",
        none, none, none⟩ ∧
    (⟨⟨2024, 3, 25⟩, ⟨9, 0⟩, ⟨18, 0⟩, "Vorlesung",
        none, none, none⟩ : Event).«end» = ⟨18, 0⟩ ∧
    parse_event_details
        ⟨["week_block"], "", some "09:00&nbsp;-17:00<br>Vorlesung", [], []⟩
        ⟨2024, 3, 25⟩ =
      .ok ⟨⟨2024, 3, 25⟩, ⟨9, 0⟩, ⟨17, 0⟩, "Vorlesung",
        none, none, none⟩ ∧
    (⟨⟨2024, 3, 25⟩, ⟨9, 0⟩, ⟨17, 0⟩, "Vorlesung",
        none, none, none⟩ : Event).«end» = ⟨17, 0⟩ ∧
    parse_event_details
        ⟨["week_block"], "", some "09:00&nbsp;-banana<br>Vorlesung", [], []⟩
        ⟨2024, 3, 25⟩ =
      .error (htmlError "src/parser.rs#L217"
        "couldn't parse event end time" "09:00&nbsp;-banana") :=
  ⟨rfl,
    C5_end_token_default_and_parse.1
      ⟨["week_block"], "", some "09:00&nbsp;-<br>Vorlesung", [], []⟩
      ⟨2024, 3, 25⟩ "09:00&nbsp;-<br>Vorlesung" "09:00&nbsp;-" "09:00"
      ["Vorlesung"] []
      ⟨⟨2024, 3, 25⟩, ⟨9, 0⟩, ⟨18, 0⟩, "Vorlesung", none, none, none⟩
      rfl rfl rfl rfl,
    rfl,
    C5_end_token_default_and_parse.2.1
      ⟨["week_block"], "", some "09:00&nbsp;-17:00<br>Vorlesung", [], []⟩
      ⟨2024, 3, 25⟩ "09:00&nbsp;-17:00<br>Vorlesung" "09:00&nbsp;-17:00"
      "09:00" "17:00" ["Vorlesung"] [] ⟨17, 0⟩
      ⟨⟨2024, 3, 25⟩, ⟨9, 0⟩, ⟨17, 0⟩, "Vorlesung", none, none, none⟩
      rfl rfl rfl rfl rfl,
    C5_end_token_default_and_parse.2.2
      ⟨["week_block"], "", some "09:00&nbsp;-banana<br>Vorlesung", [], []⟩
      ⟨2024, 3, 25⟩ "09:00&nbsp;-banana<br>Vorlesung" "09:00&nbsp;-banana"
      "09:00" "banana" ["Vorlesung"] [] ⟨9, 0⟩
      rfl rfl rfl rfl (by decide) rfl⟩

/-! ## Claim C6 -/

/-- C6: in every successfully parsed event, the location is the last
entity-decoded `span.resource` text in document order (absent when
there are none) and the description is all entity-decoded resource
texts joined with `", "` in original order (absent when there are
none). -/
theorem C6_resources_location_description
    (element : Cell) (date : Date) (ev : Event)
    (hok : parse_event_details element date = .ok ev) :
    ev.location = (element.resources.map decodeHtmlEntities).getLast? ∧
    ev.description =
      (if (element.resources.map decodeHtmlEntities).isEmpty then none
        else some (String.intercalate ", "
          (element.resources.map decodeHtmlEntities))) := by
  obtain ⟨d', tr', titleRaw, rest2, st', et', restT', start0, endT,
    _, _, _, _, _, hev⟩ :=
    parse_event_details_ok_shape element date ev hok
  rw [hev]
  exact ⟨rfl, rfl⟩

/-- C6 witness: two resource spans `"Room A"`, `"Room B"` give location
`"Room B"` and description `"Room A, Room B"`; zero resource spans and
zero person spans give absent location, description and organizer. -/
theorem C6_witness :
    parse_event_details
        ⟨["week_block"], "", some "08:00&nbsp;-09:00<br>Vorlesung",
          ["Room A", "Room B"], []⟩ ⟨2024, 3, 25⟩ =
      .ok ⟨⟨2024, 3, 25⟩, ⟨8, 0⟩, ⟨9, 0⟩, "Vorlesung",
        some "Room B", none, some "Room A, Room B"⟩ ∧
    (⟨⟨2024, 3, 25⟩, ⟨8, 0⟩, ⟨9, 0⟩, "Vorlesung",
        some "Room B", none, some "Room A, Room B"⟩ : Event).location =
      ((["Room A", "Room B"] : List String).map decodeHtmlEntities).getLast? ∧
    (⟨⟨2024, 3, 25⟩, ⟨8, 0⟩, ⟨9, 0⟩, "Vorlesung",
        some "Room B", none, some "Room A, Room B"⟩ : Event).description =
      (if ((["Room A", "Room B"] : List String).map decodeHtmlEntities).isEmpty
        then none
        else some (String.intercalate ", "
          ((["Room A", "Room B"] : List String).map decodeHtmlEntities))) ∧
    parse_event_details
        ⟨["week_block"], "", some "08:00&nbsp;-09:00<br>Vorlesung", [], []⟩
        ⟨2024, 3, 25⟩ =
      .ok ⟨⟨2024, 3, 25⟩, ⟨8, 0⟩, ⟨9, 0⟩, "Vorlesung",
        none, none, none⟩ :=
  ⟨rfl,
    (C6_resources_location_description
      ⟨["week_block"], "", some "08:00&nbsp;-09:00<br>Vorlesung",
        ["Room A", "Room B"], []⟩ ⟨2024, 3, 25⟩
      ⟨⟨2024, 3, 25⟩, ⟨8, 0⟩, ⟨9, 0⟩, "Vorlesung",
        some "Room B", none, some "Room A, Room B"⟩ rfl).1,
    (C6_resources_location_description
      ⟨["week_block"], "", some "08:00&nbsp;-09:00<br>Vorlesung",
        ["Room A", "Room B"], []⟩ ⟨2024, 3, 25⟩
      ⟨⟨2024, 3, 25⟩, ⟨8, 0⟩, ⟨9, 0⟩, "Vorlesung",
        some "Room B", none, some "Room A, Room B"⟩ rfl).2,
    rfl⟩

/-! ## Claim C9 -/

/-- C9: the midnight normalization is asymmetric — a start token that
parses to exactly 00:00 becomes 08:00 in the resulting event, while an
end token that parses to exactly 00:00 is kept as 00:00. -/
theorem C9_midnight_normalization_asymmetric :
    (∀ (element : Cell) (date : Date) (d times_raw startTok : String)
      (rest restT : List String) (ev : Event),
      element.detailsHtml = some d →
      rustSplit "<br>" d = times_raw :: rest →
      rustSplit "&nbsp;-" times_raw = startTok :: restT →
      parseTimeHM startTok = some ⟨0, 0⟩ →
      parse_event_details element date = .ok ev →
      ev.start = ⟨8, 0⟩) ∧
    (∀ (element : Cell) (date : Date) (d times_raw startTok endTok : String)
      (rest restT : List String) (ev : Event),
      element.detailsHtml = some d →
      rustSplit "<br>" d = times_raw :: rest →
      rustSplit "&nbsp;-" times_raw = startTok :: endTok :: restT →
      parseTimeHM endTok = some ⟨0, 0⟩ →
      parse_event_details element date = .ok ev →
      ev.«end» = ⟨0, 0⟩) := by
  constructor
  · intro element date d times_raw startTok rest restT ev hd hs1 hs2 hst hok
    obtain ⟨d', tr', titleRaw, rest2, st', et', restT', start0, endT,
      hd', hs1', hs2', hst', _hend, hev⟩ :=
      parse_event_details_ok_shape element date ev hok
    obtain rfl : d = d' := Option.some.inj (hd.symm.trans hd')
    obtain ⟨rfl, -⟩ : times_raw = tr' ∧ rest = titleRaw :: rest2 :=
      List.cons.inj (hs1.symm.trans hs1')
    obtain ⟨rfl, -⟩ : startTok = st' ∧ restT = et' :: restT' :=
      List.cons.inj (hs2.symm.trans hs2')
    obtain rfl : (⟨0, 0⟩ : Time) = start0 :=
      Option.some.inj (hst.symm.trans hst')
    rw [hev]
    rfl
  · intro element date d times_raw startTok endTok rest restT ev
      hd hs1 hs2 hpt hok
    obtain ⟨d', tr', titleRaw, rest2, st', et', restT', start0, endT,
      hd', hs1', hs2', _hst', hend, hev⟩ :=
      parse_event_details_ok_shape element date ev hok
    obtain rfl : d = d' := Option.some.inj (hd.symm.trans hd')
    obtain ⟨rfl, -⟩ : times_raw = tr' ∧ rest = titleRaw :: rest2 :=
      List.cons.inj (hs1.symm.trans hs1')
    obtain ⟨rfl, het⟩ :
        startTok = st' ∧ (endTok :: restT : List String) = et' :: restT' :=
      List.cons.inj (hs2.symm.trans hs2')
    obtain ⟨rfl, -⟩ : endTok = et' ∧ restT = restT' := List.cons.inj het
    rcases hend with ⟨rfl, rfl⟩ | ⟨-, hpe⟩
    · exact absurd hpt (by rw [show parseTimeHM "" = none from rfl]; simp)
    · obtain rfl : (⟨0, 0⟩ : Time) = endT :=
        Option.some.inj (hpt.symm.trans hpe)
      rw [hev]

/-- C9 witness: the time range `"00:00&nbsp;-00:00"` yields start
08:00 but end 00:00 in one and the same event. -/
theorem C9_witness :
    parse_event_details
        ⟨["week_block"], "", some "00:00&nbsp;-00:00<br>Vorlesung", [], []⟩
        ⟨2024, 3, 25⟩ =
      .ok ⟨⟨2024, 3, 25⟩, ⟨8, 0⟩, ⟨0, 0⟩, "Vorlesung",
        none, none, none⟩ ∧
    (⟨⟨2024, 3, 25⟩, ⟨8, 0⟩, ⟨0, 0⟩, "Vorlesung",
        none, none, none⟩ : Event).start = ⟨8, 0⟩ ∧
    (⟨⟨2024, 3, 25⟩, ⟨8, 0⟩, ⟨0, 0⟩, "Vorlesung",
        none, none, none⟩ : Event).«end» = ⟨0, 0⟩ :=
  ⟨rfl,
    C9_midnight_normalization_asymmetric.1
      ⟨["week_block"], "", some "00:00&nbsp;-00:00<br>Vorlesung", [], []⟩
      ⟨2024, 3, 25⟩ "00:00&nbsp;-00:00<br>Vorlesung" "00:00&nbsp;-00:00"
      "00:00" ["Vorlesung"] ["00:00"]
      ⟨⟨2024, 3, 25⟩, ⟨8, 0⟩, ⟨0, 0⟩, "Vorlesung", none, none, none⟩
      rfl rfl rfl rfl rfl,
    C9_midnight_normalization_asymmetric.2
      ⟨["week_block"], "", some "00:00&nbsp;-00:00<br>Vorlesung", [], []⟩
      ⟨2024, 3, 25⟩ "00:00&nbsp;-00:00<br>Vorlesung" "00:00&nbsp;-00:00"
      "00:00" "00:00" ["Vorlesung"] []
      ⟨⟨2024, 3, 25⟩, ⟨8, 0⟩, ⟨0, 0⟩, "Vorlesung", none, none, none⟩
      rfl rfl rfl rfl rfl⟩

/-! ## Claim C2 -/

/-- Evaluation of the Monday derivation on the header `"KW12 23.03."`:
everything up to the date-validity check computes, leaving the
`from_ymd_opt` case split. -/
theorem weekMonday_KW12_eval (year : Int) :
    weekMonday "KW12 23.03." year =
      match from_ymd_opt year 3 23 with
      | none =>
        .error (htmlError "src/parser.rs#L154"
          s!"week start date {(23 : Nat)}.{(3 : Nat)}.{year} derived from week header appears to be an invalid date"
          "KW12 23.03.")
      | some monday => .ok monday := rfl

/-- C2 counterexample: on the week header text `"KW 12 23.03."` the
second whitespace-separated token is `"12"`, which does not split on
`.` into two parts, so `parse_week` fails with a content failure
carrying the header text and derives no Monday date at all — the date
23 March is never produced for this header. -/
theorem C2_counterexample :
    parse_week ⟨none, some "KW 12 23.03.", []⟩ 2025 =
      .error (htmlError "src/parser.rs#L136"
        "expected day + month information in week header to consist of two elements when splitting by dots"
        "KW 12 23.03.") ∧
    ∀ d : Date, weekMonday "KW 12 23.03." 2025 ≠ .ok d := by
  refine ⟨rfl, fun d h => ?_⟩
  rw [show weekMonday "KW 12 23.03." 2025 =
    .error (htmlError "src/parser.rs#L136"
      "expected day + month information in week header to consist of two elements when splitting by dots"
      "KW 12 23.03.") from rfl] at h
  exact Except.noConfusion h

/-- C2 (amended): for the week header text `"KW12 23.03."` (day-month
as the second whitespace token, as the algorithm requires) and any
supplied year in chrono's representable range, the derived Monday date
is 23 March of that year, and `parse_week` proceeds with exactly that
Monday. -/
theorem C2_monday_from_header :
    ∀ (year : Int), -262144 ≤ year → year ≤ 262143 →
      weekMonday "KW12 23.03." year = .ok ⟨year, 3, 23⟩ ∧
      ∀ (wb : WeekBlock), wb.headerHtml = some "KW12 23.03." →
        parse_week wb year = processRows ⟨year, 3, 23⟩ (wb.rows.drop 1) := by
  intro year h1 h2
  have hy : from_ymd_opt year 3 23 = some ⟨year, 3, 23⟩ := by
    unfold from_ymd_opt
    rw [if_pos]
    refine ⟨h1, h2, by norm_num, by norm_num, by norm_num, ?_⟩
    unfold daysInMonth
    norm_num
  have hmon : weekMonday "KW12 23.03." year = .ok ⟨year, 3, 23⟩ := by
    rw [weekMonday_KW12_eval, hy]
  refine ⟨hmon, fun wb hw => ?_⟩
  simp only [parse_week, hw, hmon]

/-- C2 witness: the amended theorem at year 2024, with a week block
containing one event cell in its second row. -/
theorem C2_witness :
    (-262144 : Int) ≤ 2024 ∧ (2024 : Int) ≤ 262143 ∧
    weekMonday "KW12 23.03." 2024 = .ok ⟨2024, 3, 23⟩ ∧
    parse_week
        ⟨none, some "KW12 23.03.",
          [[], [⟨["week_block"], "",
            some "08:00&nbsp;-09:00<br>Vorlesung", [], []⟩]]⟩ 2024 =
      processRows ⟨2024, 3, 23⟩
        [[⟨["week_block"], "",
          some "08:00&nbsp;-09:00<br>Vorlesung", [], []⟩]] :=
  ⟨by norm_num, by norm_num,
    (C2_monday_from_header 2024 (by norm_num) (by norm_num)).1,
    (C2_monday_from_header 2024 (by norm_num) (by norm_num)).2
      ⟨none, some "KW12 23.03.",
        [[], [⟨["week_block"], "",
          some "08:00&nbsp;-09:00<br>Vorlesung", [], []⟩]]⟩ rfl⟩

/-! ## Claim C7 -/

/-- The running `day_index` accumulator of the translated cell walk
computes positional separator counts: walking the suffix `suf` with the
separator count of the prefix `pre` already accumulated equals the
positional formulation on the whole row starting at position
`pre.length`. -/
theorem processCells_eq_from (monday : Date) :
    ∀ (suf pre : List Cell),
      processCells monday (pre.countP isSeparatorCell) suf =
        processCellsFrom monday (pre ++ suf) pre.length := by
  intro suf
  induction suf with
  | nil =>
    intro pre
    rw [processCellsFrom]
    simp [processCells]
  | cons c rest ih =>
    intro pre
    rw [processCellsFrom]
    have hlt : pre.length < (pre ++ c :: rest).length := by simp
    rw [dif_pos hlt]
    have hget : (pre ++ c :: rest).get ⟨pre.length, hlt⟩ = c := by
      simp [List.getElem_append_right]
    rw [hget]
    have hsep0 : sepCountBefore (pre ++ c :: rest) pre.length =
        pre.countP isSeparatorCell := by
      simp [sepCountBefore]
    have hihc := ih (pre ++ [c])
    simp only [List.append_assoc, List.singleton_append, List.length_append,
      List.length_singleton] at hihc
    have hcnt : (pre ++ [c]).countP isSeparatorCell =
        pre.countP isSeparatorCell +
          (if isSeparatorCell c then 1 else 0) := by
      simp [List.countP_append, List.countP_cons]
    cases hcl : c.classes.head? with
    | none =>
      simp only [processCells, hcl]
    | some cls =>
      simp only [processCells, hcl]
      by_cases hwb : cls = "week_block"
      · subst hwb
        have hns :
            rustStartsWith "week_block" "week_separatorcell" = false := rfl
        have hc' : isSeparatorCell c = false := by
          simp [isSeparatorCell, hcl, hns]
        have hcnt2 : (pre ++ [c]).countP isSeparatorCell =
            pre.countP isSeparatorCell := by
          simp [List.countP_append, List.countP_cons, hc']
        rw [hcnt2] at hihc
        simp [hns, hsep0, ← hihc]
      · have hc' : isSeparatorCell c =
            rustStartsWith cls "week_separatorcell" := by
          simp [isSeparatorCell, hcl]
        rw [if_pos hwb, if_neg hwb, ← hihc]
        rw [hc'] at hcnt
        cases hb : rustStartsWith cls "week_separatorcell" <;>
          rw [hcnt] <;> simp [hb]

/-- C7: (i) the row/cell walk of `parse_week` equals its positional
formulation — within each row (`day_index` reset to 0 per row), every
event cell's date is the week's Monday plus the number of
day-separator cells preceding it in that row; (ii) for a week block
whose header derives Monday `monday`, `parse_week` processes exactly
the rows after the first with that positional formulation. -/
theorem C7_event_dates_by_separator_count :
    (∀ (monday : Date) (rows : List (List Cell)),
      processRows monday rows = processRowsFrom monday rows) ∧
    (∀ (wb : WeekBlock) (year : Int) (hdr : String) (monday : Date),
      wb.headerHtml = some hdr →
      weekMonday hdr year = .ok monday →
      parse_week wb year = processRowsFrom monday (wb.rows.drop 1)) := by
  have h0 : ∀ (monday : Date) (row : List Cell),
      processCells monday 0 row = processCellsFrom monday row 0 := by
    intro monday row
    simpa using processCells_eq_from monday row []
  have h1 : ∀ (monday : Date) (rows : List (List Cell)),
      processRows monday rows = processRowsFrom monday rows := by
    intro monday rows
    induction rows with
    | nil => rfl
    | cons row rest ih =>
      simp only [processRows, processRowsFrom, h0, ih]
  refine ⟨h1, fun wb year hdr monday hh hmon => ?_⟩
  simp only [parse_week, hh, hmon]
  exact h1 monday (wb.rows.drop 1)

/-- C7 witness: a row with one separator cell followed by an event
cell dates that event one day after Monday (23 March 2024 → 24 March
2024). -/
theorem C7_witness :
    (⟨none, some "KW12 23.03.",
      [[], [⟨["week_separatorcell_black"], "", none, [], []⟩,
        ⟨["week_block"], "", some "08:00&nbsp;-09:00<br>Vorlesung",
          [], []⟩]]⟩ : WeekBlock).headerHtml = some "KW12 23.03." ∧
    weekMonday "KW12 23.03." 2024 = .ok ⟨2024, 3, 23⟩ ∧
    parse_week
        ⟨none, some "KW12 23.03.",
          [[], [⟨["week_separatorcell_black"], "", none, [], []⟩,
            ⟨["week_block"], "", some "08:00&nbsp;-09:00<br>Vorlesung",
              [], []⟩]]⟩ 2024 =
      processRowsFrom ⟨2024, 3, 23⟩
        [[⟨["week_separatorcell_black"], "", none, [], []⟩,
          ⟨["week_block"], "", some "08:00&nbsp;-09:00<br>Vorlesung",
            [], []⟩]] ∧
    processRows ⟨2024, 3, 23⟩
        [[⟨["week_separatorcell_black"], "", none, [], []⟩,
          ⟨["week_block"], "", some "08:00&nbsp;-09:00<br>Vorlesung",
            [], []⟩]] =
      .ok [⟨⟨2024, 3, 24⟩, ⟨8, 0⟩, ⟨9, 0⟩, "Vorlesung",
        none, none, none⟩] :=
  ⟨rfl, rfl,
    C7_event_dates_by_separator_count.2
      ⟨none, some "KW12 23.03.",
        [[], [⟨["week_separatorcell_black"], "", none, [], []⟩,
          ⟨["week_block"], "", some "08:00&nbsp;-09:00<br>Vorlesung",
            [], []⟩]]⟩ 2024 "KW12 23.03." ⟨2024, 3, 23⟩ rfl rfl,
    rfl⟩

/-! ## Claims C3 and C8 -/

/-- The running-year accumulator of the translated week loop computes
the closed-form working year: processing the suffix `suf` starting at
index `pre.length` with the year accumulated over `pre` equals the
positional formulation on the whole list. -/
theorem parseWeeks_eq_from :
    ∀ (suf pre : List WeekBlock) (y : Int),
      parseWeeks suf pre.length (y + onesBelow (pre ++ suf) pre.length) =
        parseWeeksFrom (pre ++ suf) y pre.length := by
  intro suf
  induction suf with
  | nil =>
    intro pre y
    rw [parseWeeksFrom]
    simp [parseWeeks]
  | cons w rest ih =>
    intro pre y
    rw [parseWeeksFrom]
    have hlt : pre.length < (pre ++ w :: rest).length := by simp
    rw [dif_pos hlt]
    have hgetD : (pre ++ w :: rest).getD pre.length default = w := by
      simp [List.getD_eq_getElem?_getD, List.getElem?_append_right,
        List.getElem_append_right]
    simp only [stepAt, hgetD]
    cases hn : parseWeekNumber w pre.length with
    | error e =>
      simp only [parseWeeks, hn]
    | ok n =>
      simp only [parseWeeks, hn]
      have hw1 : weekNumberIsOne (pre ++ w :: rest) pre.length = (n == 1) := by
        simp only [weekNumberIsOne]
        rw [hgetD, hn]
      have hones : onesBelow (pre ++ w :: rest) (pre.length + 1) =
          onesBelow (pre ++ w :: rest) pre.length +
            (if n = 1 ∧ pre.length > 0 then 1 else 0) := by
        unfold onesBelow
        rw [List.range_succ]
        rcases Nat.eq_zero_or_pos pre.length with hz | hp
        · rw [hz]
          simp
        · rw [List.drop_append_of_le_length (by simpa using hp),
            List.countP_append]
          have hsingle :
              List.countP (weekNumberIsOne (pre ++ w :: rest)) [pre.length] =
                if n = 1 then 1 else 0 := by
            rw [List.countP_cons, List.countP_nil, hw1]
            by_cases h1 : n = 1 <;> simp [h1]
          rw [hsingle]
          simp [hp]
      have hyear :
          (if n = 1 ∧ pre.length > 0
            then y + ↑(onesBelow (pre ++ w :: rest) pre.length) + 1
            else y + ↑(onesBelow (pre ++ w :: rest) pre.length)) =
          y + ↑(onesBelow (pre ++ w :: rest) (pre.length + 1)) := by
        rw [hones]
        by_cases hc : n = 1 ∧ pre.length > 0
        · rw [if_pos hc, if_pos hc]
          push_cast
          ring
        · rw [if_neg hc, if_neg hc]
          push_cast
          ring
      rw [hyear]
      have ih2 := ih (pre ++ [w]) y
      simp only [List.append_assoc, List.singleton_append, List.length_append,
        List.length_singleton] at ih2
      rw [ih2]

/-- The week loop started at index 0 equals the positional
formulation. -/
theorem parseWeeks_from_zero (ws : List WeekBlock) (y : Int) :
    parseWeeks ws 0 y = parseWeeksFrom ws y 0 := by
  have h := parseWeeks_eq_from ws [] y
  simpa [onesBelow] using h

/-- C3: `parse_calendar` on a titled document equals the positional
week loop `parseWeeksFrom`, in which the block at index `i` is parsed
with working year `start_year + onesBelow ws (i + 1)` — that is,
`start_year` plus the number of week blocks at indices `1, …, i` whose
parsed week number is `1`.  The very first block (index 0) never
contributes an increment. -/
theorem C3_year_rollover_closed_form (doc : Doc) (y : Int) (t : String)
    (ht : doc.titleHtml = some t) :
    parse_calendar doc y =
      Except.map (fun evs => Calendar.mk (rustTrim t) evs)
        (parseWeeksFrom doc.weeks y 0) := by
  simp only [parse_calendar, ht, parseWeeks_from_zero]
  cases parseWeeksFrom doc.weeks y 0 <;> rfl

/-- C3 witness: a document whose second week block has week number 1
is parsed with the incremented year — the event in that block lands on
6 January 2025 although `start_year` was 2024. -/
theorem C3_witness :
    (⟨some "T",
      [⟨some "KW 52", some "KW12 30.12.", []⟩,
        ⟨some "KW 1", some "KW12 06.01.",
          [[], [⟨["week_block"], "",
            some "08:00&nbsp;-09:00<br>Vorlesung", [], []⟩]]⟩]⟩ :
        Doc).titleHtml = some "T" ∧
    parse_calendar
        ⟨some "T",
          [⟨some "KW 52", some "KW12 30.12.", []⟩,
            ⟨some "KW 1", some "KW12 06.01.",
              [[], [⟨["week_block"], "",
                some "08:00&nbsp;-09:00<br>Vorlesung", [], []⟩]]⟩]⟩ 2024 =
      Except.map (fun evs => Calendar.mk (rustTrim "T") evs)
        (parseWeeksFrom
          [⟨some "KW 52", some "KW12 30.12.", []⟩,
            ⟨some "KW 1", some "KW12 06.01.",
              [[], [⟨["week_block"], "",
                some "08:00&nbsp;-09:00<br>Vorlesung", [], []⟩]]⟩] 2024 0) ∧
    parse_calendar
        ⟨some "T",
          [⟨some "KW 52", some "KW12 30.12.", []⟩,
            ⟨some "KW 1", some "KW12 06.01.",
              [[], [⟨["week_block"], "",
                some "08:00&nbsp;-09:00<br>Vorlesung", [], []⟩]]⟩]⟩ 2024 =
      .ok ⟨"T", [⟨⟨2025, 1, 6⟩, ⟨8, 0⟩, ⟨9, 0⟩, "Vorlesung",
        none, none, none⟩]⟩ :=
  ⟨rfl,
    C3_year_rollover_closed_form
      ⟨some "T",
        [⟨some "KW 52", some "KW12 30.12.", []⟩,
          ⟨some "KW 1", some "KW12 06.01.",
            [[], [⟨["week_block"], "",
              some "08:00&nbsp;-09:00<br>Vorlesung", [], []⟩]]⟩]⟩ 2024 "T"
      rfl,
    rfl⟩

/-- If the step at index `i` fails with `e` while all steps from `k`
up to `i` succeed, the positional week loop started anywhere in
`k, …, i` returns exactly `e`. -/
theorem parseWeeksFrom_error_of_step (ws : List WeekBlock) (y : Int)
    (i : Nat) (e : ParseError) (hil : i < ws.length)
    (hstep : stepAt ws y i = .error e) :
    ∀ (k : Nat), k ≤ i →
      (∀ j, k ≤ j → j < i → (stepAt ws y j).isOk = true) →
      parseWeeksFrom ws y k = .error e := by
  have main : ∀ (n k : Nat), i - k = n → k ≤ i →
      (∀ j, k ≤ j → j < i → (stepAt ws y j).isOk = true) →
      parseWeeksFrom ws y k = .error e := by
    intro n
    induction n with
    | zero =>
      intro k hn hki _hok
      have hk : k = i := by omega
      subst hk
      rw [parseWeeksFrom, dif_pos hil, hstep]
    | succ n ihn =>
      intro k hn hki hok
      have hki' : k < i := by omega
      have hk : k < ws.length := by omega
      rw [parseWeeksFrom, dif_pos hk]
      have hkok := hok k (le_refl k) hki'
      cases hs : stepAt ws y k with
      | error e2 =>
        rw [hs] at hkok
        simp [Except.isOk, Except.toBool] at hkok
      | ok evs =>
        simp only [hs]
        rw [ihn (k + 1) (by omega) (by omega)
          (fun j hj1 hj2 => hok j (by omega) hj2)]
  intro k hki hok
  exact main (i - k) k rfl hki hok

/-- If every step from `k` on succeeds, the positional week loop
started at `k` succeeds. -/
theorem parseWeeksFrom_ok_of_steps (ws : List WeekBlock) (y : Int) :
    ∀ (k : Nat),
      (∀ j, k ≤ j → j < ws.length → (stepAt ws y j).isOk = true) →
      ∃ evs, parseWeeksFrom ws y k = .ok evs := by
  have main : ∀ (n k : Nat), ws.length - k = n →
      (∀ j, k ≤ j → j < ws.length → (stepAt ws y j).isOk = true) →
      ∃ evs, parseWeeksFrom ws y k = .ok evs := by
    intro n
    induction n with
    | zero =>
      intro k hn _hok
      rw [parseWeeksFrom, dif_neg (by omega)]
      exact ⟨[], rfl⟩
    | succ n ihn =>
      intro k hn hok
      have hk : k < ws.length := by omega
      rw [parseWeeksFrom, dif_pos hk]
      have hkok := hok k (le_refl k) hk
      cases hs : stepAt ws y k with
      | error e2 =>
        rw [hs] at hkok
        simp [Except.isOk, Except.toBool] at hkok
      | ok evs1 =>
        simp only [hs]
        obtain ⟨evs2, h2⟩ := ihn (k + 1) (by omega)
          (fun j hj1 hj2 => hok j (by omega) hj2)
        rw [h2]
        exact ⟨evs1 ++ evs2, rfl⟩
  intro k hok
  exact main (ws.length - k) k rfl hok

/-- C8: `parse_calendar` is all-or-nothing.  (i) With no title element
it returns exactly the title selection failure.  (ii) With a title, if
the week step at index `i` is the first to fail (all earlier steps
succeed), `parse_calendar` returns exactly that step's error — no
events from any week are delivered.  (iii) With a title and all week
steps succeeding, it returns a fully-populated `Calendar`.  The
`Except` result type itself guarantees there is no partial-result
channel. -/
theorem C8_first_failure_aborts (doc : Doc) (y : Int) :
    (doc.titleHtml = none →
      parse_calendar doc y =
        .error (selectError "src/parser.rs#L90" "title")) ∧
    (∀ t, doc.titleHtml = some t →
      (∀ i e, i < doc.weeks.length →
        (∀ j, j < i → (stepAt doc.weeks y j).isOk = true) →
        stepAt doc.weeks y i = .error e →
        parse_calendar doc y = .error e) ∧
      ((∀ j, j < doc.weeks.length → (stepAt doc.weeks y j).isOk = true) →
        ∃ cal, parse_calendar doc y = .ok cal ∧ cal.name = rustTrim t)) := by
  refine ⟨fun hnone => ?_, fun t ht => ⟨fun i e hi hprev hstep => ?_, fun hall => ?_⟩⟩
  · simp only [parse_calendar, hnone]
  · simp only [parse_calendar, ht, parseWeeks_from_zero]
    rw [parseWeeksFrom_error_of_step doc.weeks y i e hi hstep 0
      (Nat.zero_le i) (fun j _ hj2 => hprev j hj2)]
  · obtain ⟨evs, hevs⟩ := parseWeeksFrom_ok_of_steps doc.weeks y 0
      (fun j _ hj => hall j hj)
    refine ⟨⟨rustTrim t, evs⟩, ?_, rfl⟩
    simp only [parse_calendar, ht, parseWeeks_from_zero, hevs]

/-- C8 witness: the three parts at concrete documents — no title; a
title with a week block lacking its week-number cell (the step's
selection failure is returned verbatim); and a title with one fully
well-formed week block (a calendar is returned). -/
theorem C8_witness :
    parse_calendar ⟨none, []⟩ 2024 =
      .error (selectError "src/parser.rs#L90" "title") ∧
    parse_calendar ⟨some "T", [⟨none, none, []⟩]⟩ 2024 =
      .error (selectError "src/parser.rs#L98" "th.week_number") ∧
    ∃ cal, parse_calendar
        ⟨some "T", [⟨some "KW 1", some "KW12 06.01.", []⟩]⟩ 2024 =
      .ok cal ∧ cal.name = rustTrim "T" :=
  ⟨(C8_first_failure_aborts ⟨none, []⟩ 2024).1 rfl,
    ((C8_first_failure_aborts ⟨some "T", [⟨none, none, []⟩]⟩ 2024).2 "T"
      rfl).1 0 (selectError "src/parser.rs#L98" "th.week_number")
      (by decide) (fun j hj => absurd hj (Nat.not_lt_zero j)) rfl,
    ((C8_first_failure_aborts
      ⟨some "T", [⟨some "KW 1", some "KW12 06.01.", []⟩]⟩ 2024).2 "T"
      rfl).2 (by
        intro j hj
        have hj0 : j = 0 := by simpa using hj
        subst hj0
        rfl)⟩

/-! ## Claim C10 -/

/-- C10: a document with a title element but zero week-block
containers parses successfully to a calendar whose name is the trimmed
title text and whose event list is empty. -/
theorem C10_title_no_weeks (t : String) (y : Int) :
    parse_calendar ⟨some t, []⟩ y = .ok ⟨rustTrim t, []⟩ := rfl

end Rapla
